import Mathlib

/-!
Verification of the image ingestion and storage-lifecycle pipeline of the
blogging application (src/server.js and src/unnamed/part_001).

The JavaScript source is shallowly embedded:

* byte buffers become `List Nat`;
* the external libraries (`sharp`, the Supabase storage client, the HTML
  sanitizer) become oracle structures whose behaviour is universally
  quantified in the theorems;
* every call the handlers make to the object store is recorded in an
  explicit trace (`List StoreCall`), so that "a delete was attempted
  exactly once" or "no store call was made" are provable statements;
* the `posts` table becomes a `List Post`, and each route handler is a
  pure function from the request data and the table to the new table,
  the store-call trace and the rendered response.
-/

/-- Raw byte buffers (Node `Buffer`) as lists of byte values. -/
def Bytes : Type := List Nat

instance : DecidableEq Bytes := by unfold Bytes; infer_instance

instance : Append Bytes := by unfold Bytes; infer_instance

/-- A thrown JavaScript error, keeping the only field the handlers inspect:
the optional `code` property (`e && e.code`). -/
structure JsErr where
  code : Option String
deriving DecidableEq, Repr

deriving instance DecidableEq for Except

/-- Oracle for the `sharp` image library: whether `metadata()` resolves, and
what each re-encoding call produces (either output bytes or a raised error). -/
structure SharpModel where
  metadata : Bytes → Except JsErr Unit
  toJpeg : Bytes → Except JsErr Bytes
  toPng : Bytes → Except JsErr Bytes
  toWebp : Bytes → Except JsErr Bytes

/-- Model of JavaScript `s.startsWith(pre)` (character-list comparison). -/
def strStartsWith (s pre : String) : Bool :=
  s.data.take pre.data.length == pre.data

/-- The re-encoding step selected by `compressImage`'s mimetype dispatch
(src/unnamed/part_001 lines 72-90): jpeg/jpg, png, webp, and any other image
type converted to JPEG. -/
def encoderFor (sh : SharpModel) (mimetype : String) (buffer : Bytes) : Except JsErr Bytes :=
  if mimetype = "image/jpeg" || mimetype = "image/jpg" then sh.toJpeg buffer
  else if mimetype = "image/png" then sh.toPng buffer
  else if mimetype = "image/webp" then sh.toWebp buffer
  else sh.toJpeg buffer

/-- Model of `compressImage(buffer, mimetype)` (src/unnamed/part_001 lines
56-100, identical in src/server.js lines 54-98).  The whole body is wrapped
in `try/catch` with `return buffer` in the catch, so a failure of
`sharp(buffer).metadata()` or of the selected encoder yields the original
buffer.  Note the source awaits `metadata()` before the small-file length
check. -/
def compressImage (sh : SharpModel) (buffer : Bytes) (mimetype : String) : Bytes :=
  if !(strStartsWith mimetype "image/") then buffer
  else
    match sh.metadata buffer with
    | .error _ => buffer
    | .ok _ =>
      if buffer.length < 100000 then buffer
      else
        match encoderFor sh mimetype buffer with
        | .error _ => buffer
        | .ok out => out

/-- Characters kept by the sanitizer regex `/[^a-z0-9-_]/gi` of
`uploadToSupabase` (src/unnamed/part_001 line 118). -/
def keepChar (c : Char) : Bool := c.isAlphanum || c = '-' || c = '_'

/-- One character of `.replace(/[^a-z0-9-_]/gi, "_")`. -/
def sanitizeChar (c : Char) : Char := if keepChar c then c else '_'

/-- ASCII lowering of one character, modelling JS `toLowerCase` on the
ASCII range (the range file extensions live in under the well-formedness
hypotheses of the theorems below). -/
def jsToLowerChar (c : Char) : Char :=
  if c = 'A' then 'a' else if c = 'B' then 'b' else if c = 'C' then 'c' else
  if c = 'D' then 'd' else if c = 'E' then 'e' else if c = 'F' then 'f' else
  if c = 'G' then 'g' else if c = 'H' then 'h' else if c = 'I' then 'i' else
  if c = 'J' then 'j' else if c = 'K' then 'k' else if c = 'L' then 'l' else
  if c = 'M' then 'm' else if c = 'N' then 'n' else if c = 'O' then 'o' else
  if c = 'P' then 'p' else if c = 'Q' then 'q' else if c = 'R' then 'r' else
  if c = 'S' then 's' else if c = 'T' then 't' else if c = 'U' then 'u' else
  if c = 'V' then 'v' else if c = 'W' then 'w' else if c = 'X' then 'x' else
  if c = 'Y' then 'y' else if c = 'Z' then 'z' else c

/-- JS `s.toLowerCase()` (ASCII range). -/
def jsToLower (s : String) : String := ⟨s.data.map jsToLowerChar⟩

/-- Split a slash-free filename into stem and extension at the last dot,
modelling Node `path.extname`: no dot at all, or a dot only in leading
position (dotfile), means no extension.  (Node additionally special-cases
names consisting solely of dots; the theorems below stay away from those
via `wellFormedFilename`.) -/
def splitExtCs (cs : List Char) : List Char × List Char :=
  let afterRev := cs.reverse.takeWhile (fun c => c != '.')
  match cs.reverse.dropWhile (fun c => c != '.') with
  | [] => (cs, [])
  | _ :: baseRev =>
    if baseRev.isEmpty then (cs, [])
    else (baseRev.reverse, '.' :: afterRev.reverse)

/-- Node `path.extname(orig)` for slash-free names. -/
def extnameOf (orig : String) : String := ⟨(splitExtCs orig.data).2⟩

/-- Node `path.basename(orig, ext)` for slash-free `orig`: the suffix `ext`
is stripped only when it is literally (case-sensitively) a suffix and is not
the whole name. -/
def basenameDrop (orig ext : String) : String :=
  if ext.data.isSuffixOf orig.data && orig != ext then
    ⟨orig.data.take (orig.data.length - ext.data.length)⟩
  else orig

/-- The storage key derivation inside `uploadToSupabase` (src/unnamed/part_001
lines 115-119, identical in src/server.js lines 113-117):
`posts/<Date.now()>_<sanitized base><lowercased extension>`.  Note that the
source passes the already-lowercased extension to `path.basename`, so an
upper-case extension is not stripped from the base (its characters are then
sanitized into the base). -/
def deriveKey (now : Nat) (originalname : String) : String :=
  let extension := jsToLower (extnameOf originalname)
  let safeBase : String := ⟨(basenameDrop originalname extension).data.map sanitizeChar⟩
  "posts/" ++ Nat.repr now ++ "_" ++ safeBase ++ extension

/-- Startup configuration: `SUPABASE_URL`, `SUPABASE_BUCKET`, whether the
client was created (`supabase !== null`), and the multer `fileSize` limit
(`MAX_UPLOAD_BYTES`, src/unnamed/part_001 line 40). -/
structure Config where
  supabaseUrl : String
  bucket : String
  clientConfigured : Bool
  maxUploadBytes : Nat
deriving DecidableEq, Repr

/-- The default multer file-size limit: `10 * 1024 * 1024` bytes. -/
def defaultMaxUploadBytes : Nat := 10 * 1024 * 1024

/-- `supabase.storage.from(bucket).getPublicUrl(key)`: a pure derivation per
the Supabase public-URL convention
`<SUPABASE_URL>/storage/v1/object/public/<bucket>/<key>` (src/unnamed/part_001
lines 130-133 and the comment at line 141). -/
def getPublicUrl (cfg : Config) (key : String) : String :=
  cfg.supabaseUrl ++ "/storage/v1/object/public/" ++ cfg.bucket ++ "/" ++ key

/-- A character that may appear in the authority part of a URL without
terminating it. -/
def isAuthChar (c : Char) : Bool := c != '/' && c != '?' && c != '#'

/-- A character that may appear in the path of a URL without terminating it. -/
def isPathChar (c : Char) : Bool := c != '?' && c != '#'

/-- Strip an `https://` or `http://` scheme. -/
def dropScheme : List Char → Option (List Char)
  | 'h' :: 't' :: 't' :: 'p' :: 's' :: ':' :: '/' :: '/' :: rest => some rest
  | 'h' :: 't' :: 't' :: 'p' :: ':' :: '/' :: '/' :: rest => some rest
  | _ => none

/-- Model of `new URL(u).pathname` for http(s) URLs whose path characters
need no percent-encoding (all URLs built by `getPublicUrl` under the
well-formedness hypotheses below are in that range); `none` models the URL
constructor throwing. -/
def urlPathnameChars (cs : List Char) : Option (List Char) :=
  match dropScheme cs with
  | none => none
  | some rest =>
    let auth := rest.takeWhile isAuthChar
    if auth.isEmpty then none
    else
      match rest.drop auth.length with
      | '/' :: tail => some ('/' :: tail.takeWhile isPathChar)
      | _ => some ['/']

/-- JS `str.split('/')` on character lists. -/
def splitOnSlash : List Char → List (List Char)
  | [] => [[]]
  | c :: rest =>
    match splitOnSlash rest with
    | [] => [[]]
    | h :: t => if c = '/' then [] :: h :: t else (c :: h) :: t

/-- JS `array.indexOf(x)` as an `Option Nat` (the source checks `idx >= 0`). -/
def idxOf (x : List Char) : List (List Char) → Option Nat
  | [] => none
  | y :: t => if y = x then some 0 else (idxOf x t).map (· + 1)

/-- JS `array.join('/')` on character lists. -/
def joinSlash : List (List Char) → List Char
  | [] => []
  | [s] => s
  | s :: rest => s ++ '/' :: joinSlash rest

/-- Model of `extractStorageKey(publicUrl)` (src/unnamed/part_001 lines
137-154): return `null` for a falsy argument; parse the URL (`null` when the
constructor throws); split the pathname on `/`; find the segment `public`;
if it exists and at least two segments follow, the key is the segments after
the next one (the bucket), joined by `/`; otherwise `null`. -/
def extractStorageKey (publicUrl : String) : Option String :=
  if publicUrl = "" then none
  else
    match urlPathnameChars publicUrl.data with
    | none => none
    | some path =>
      let parts := splitOnSlash path
      match idxOf "public".data parts with
      | none => none
      | some idx =>
        if idx + 2 < parts.length then some ⟨joinSlash (parts.drop (idx + 2))⟩
        else none

/-- Characters the spec's "well-formed original filename" may contain:
ASCII letters and digits, `-`, `_`, `.`. -/
def goodFileChar (c : Char) : Bool := c.isAlphanum || c = '-' || c = '_' || c = '.'

/-- A well-formed original filename: nonempty, made of `goodFileChar`s, not
starting with a dot. -/
def wellFormedFilename (s : String) : Bool :=
  !s.data.isEmpty && s.data.all goodFileChar && s.data.head? != some '.'

instance : Repr Bytes := by unfold Bytes; infer_instance

/-- One call made to the Supabase storage API, recorded in order. -/
inductive StoreCall where
  | put (key : String) (bytes : Bytes) (contentType : String)
  | remove (key : String)
deriving DecidableEq, Repr

/-- Oracle for the remote store's behaviour: what `.upload` and `.remove`
report for given arguments. -/
structure StoreModel where
  putResult : String → Bytes → String → Except JsErr Unit
  removeResult : String → Except JsErr Unit

/-- A multer in-memory upload (`req.file`): original name, declared MIME
type, raw bytes. -/
structure File where
  originalname : String
  mimetype : String
  buffer : Bytes
deriving DecidableEq, Repr

/-- The value returned by part_001's `uploadToSupabase`: the public URL and
the storage key. -/
structure Uploaded where
  publicUrl : String
  key : String
deriving DecidableEq, Repr

/-- A row of the `posts` table (id SERIAL, title, body, authorid, nullable
imageurl; createDate is irrelevant to the claims and omitted). -/
structure Post where
  id : Nat
  title : String
  body : String
  authorid : Nat
  imageurl : Option String
deriving DecidableEq, Repr

/-- Per-request environment: the HTML sanitizer (external library, used by
`share` with no allowed tags), the sharp and store oracles, `Date.now()`,
and the SERIAL id the database would assign to an inserted row. -/
structure Env where
  sanitize : String → String
  sharp : SharpModel
  store : StoreModel
  now : Nat
  freshId : Nat

/-- The response sent to the client: a redirect, or a rendered view with its
status, `errors` list and the `fieldErrors.image` messages. -/
inductive Response where
  | redirect (loc : String)
  | render (status : Nat) (view : String) (errors : List String) (imageErrors : List String)
deriving DecidableEq, Repr

/-- Result of one request: the new `posts` table, the store calls made (in
order), and the response. -/
structure HResult where
  db : List Post
  calls : List StoreCall
  response : Response
deriving DecidableEq, Repr

/-- Field error shown when create/edit lacks a file (part_001 lines 385, 518). -/
def missingImageMsg : String := "Upload an image for this post."

/-- The distinct too-large message (part_001 lines 400, 600). -/
def tooLargeMsg : String := "Selected image is too large. Maximum allowed size is 10 MB."

/-- The generic upload-failure message (part_001 lines 400, 529). -/
def uploadFailedMsg : String := "Image upload failed. Please try again."

/-- One character of JS whitespace as trimmed by `String.prototype.trim`. -/
def isJsSpace (c : Char) : Bool :=
  c = ' ' || c = '\t' || c = '\n' || c = '\r' || c = '\x0c' || c = '\x0b'

/-- JS `s.trim()`: strip leading and trailing whitespace. -/
def jsTrim (s : String) : String :=
  ⟨((s.data.dropWhile isJsSpace).reverse.dropWhile isJsSpace).reverse⟩

/-- `share(req)` (part_001 lines 337-348): coerce non-strings to "", trim,
sanitize, and collect the validation errors; returns the errors together
with the sanitized title and body that the handler goes on to use. -/
def share (env : Env) (title body : Option String) : List String × String × String :=
  let t0 := match title with | some s => s | none => ""
  let b0 := match body with | some s => s | none => ""
  let t := env.sanitize (jsTrim t0)
  let b := env.sanitize (jsTrim b0)
  ((if t = "" then ["provide a title"] else []) ++
    (if b = "" then ["provide content"] else []), t, b)

/-- `uploadToSupabase(file)` (part_001 lines 102-134; src/server.js's copy
differs only in returning the bare URL): `null` for no file; throw when the
client is unconfigured; compress; derive the key; `.upload` with the *file's
declared* content type; throw the upload error; otherwise return the public
URL and key.  The store calls made are returned alongside. -/
def uploadToSupabase (cfg : Config) (env : Env) (file : Option File) :
    Except JsErr (Option Uploaded) × List StoreCall :=
  match file with
  | none => (.ok none, [])
  | some f =>
    if !cfg.clientConfigured then (.error ⟨none⟩, [])
    else
      let compressed := compressImage env.sharp f.buffer f.mimetype
      let key := deriveKey env.now f.originalname
      match env.store.putResult key compressed f.mimetype with
      | .error e => (.error e, [.put key compressed f.mimetype])
      | .ok _ => (.ok (some ⟨getPublicUrl cfg key, key⟩), [.put key compressed f.mimetype])

/-- `SELECT * FROM posts WHERE id = ...` taking the first row. -/
def findPostById (db : List Post) (pid : Nat) : Option Post :=
  db.find? (fun p => p.id == pid)

/-- `UPDATE posts SET title, body WHERE id = ...`. -/
def updateTitleBody (db : List Post) (pid : Nat) (t b : String) : List Post :=
  db.map (fun p => if p.id == pid then { p with title := t, body := b } else p)

/-- `UPDATE posts SET title, body, imageurl WHERE id = ...`. -/
def updateWithImage (db : List Post) (pid : Nat) (t b url : String) : List Post :=
  db.map (fun p => if p.id == pid then { p with title := t, body := b, imageurl := some url } else p)

/-- `DELETE FROM posts WHERE id = ...`. -/
def deleteById (db : List Post) (pid : Nat) : List Post :=
  db.filter (fun p => p.id != pid)

/-- The delete-post route (identical in src/unnamed/part_001 lines 450-464
and src/server.js lines 350-364): `mustBeLoggedIn`, load the post, verify
ownership, delete the database row, redirect.  No storage API call appears
in this handler. -/
def deletePost (db : List Post) (user : Option Nat) (pid : Nat) : HResult :=
  match user with
  | none => ⟨db, [], .redirect "/"⟩
  | some uid =>
    match findPostById db pid with
    | none => ⟨db, [], .redirect "/"⟩
    | some post =>
      if post.authorid ≠ uid then ⟨db, [], .redirect "/"⟩
      else ⟨deleteById db pid, [], .redirect "/"⟩

/-- The edit-post handler body of src/unnamed/part_001 lines 365-447 (after
multer): load post, ownership, `share` validation, require a file, upload
(catching failures with the message chosen by the error's `code`), then
update the row with the new URL and best-effort delete the old object
(`extractStorageKey` of the old URL, guarded by the `if (oldKey)`
truthiness check of part_001 line 418, so an empty extracted key is
skipped; a remove error is only logged). -/
def editPostHandler (cfg : Config) (env : Env) (db : List Post) (uid : Nat) (pid : Nat)
    (title body : Option String) (file : Option File) : HResult :=
  match findPostById db pid with
  | none => ⟨db, [], .redirect "/"⟩
  | some post =>
    if post.authorid ≠ uid then ⟨db, [], .redirect "/"⟩
    else
      match share env title body with
      | (errors, t, b) =>
        if errors ≠ [] then ⟨db, [], .render 200 "edit-post" errors []⟩
        else
          match file with
          | none => ⟨db, [], .render 200 "edit-post" [] [missingImageMsg]⟩
          | some f =>
            match uploadToSupabase cfg env (some f) with
            | (.error e, calls) =>
              ⟨db, calls, .render 200 "edit-post" []
                [if e.code = some "LIMIT_FILE_SIZE" then tooLargeMsg else uploadFailedMsg]⟩
            | (.ok up, calls) =>
              match up with
              | some u =>
                if u.publicUrl ≠ "" then
                  ⟨updateWithImage db pid t b u.publicUrl,
                    calls ++
                      (match post.imageurl with
                      | some old =>
                        if old ≠ "" then
                          if cfg.clientConfigured then
                            match extractStorageKey old with
                            | some oldKey =>
                              if oldKey ≠ "" then [StoreCall.remove oldKey] else []
                            | none => []
                          else []
                        else []
                      | none => []),
                    .redirect ("/post/" ++ Nat.repr pid)⟩
                else ⟨updateTitleBody db pid t b, calls, .redirect ("/post/" ++ Nat.repr pid)⟩
              | none => ⟨updateTitleBody db pid t b, calls, .redirect ("/post/" ++ Nat.repr pid)⟩

/-- The full edit-post route of part_001: `mustBeLoggedIn`, then the multer
stage (a body larger than the configured `fileSize` aborts with
`LIMIT_FILE_SIZE`, rendered by `multerErrorHandler`, part_001 lines
595-637), then the handler. -/
def editPost (cfg : Config) (env : Env) (db : List Post) (user : Option Nat) (pid : Nat)
    (title body : Option String) (file : Option File) : HResult :=
  match user with
  | none => ⟨db, [], .redirect "/"⟩
  | some uid =>
    match file with
    | some f =>
      if f.buffer.length > cfg.maxUploadBytes then
        ⟨db, [], .render 400 "edit-post" [] [tooLargeMsg]⟩
      else editPostHandler cfg env db uid pid title body (some f)
    | none => editPostHandler cfg env db uid pid title body none

/-- The create-post handler body of src/unnamed/part_001 lines 509-540
(after multer): `share` validation, require a file, upload (catching
failures), then INSERT the row with the returned public URL and redirect to
the new post. -/
def createPostHandler (cfg : Config) (env : Env) (db : List Post) (uid : Nat)
    (title body : Option String) (file : Option File) : HResult :=
  match share env title body with
  | (errors, t, b) =>
    if errors ≠ [] then ⟨db, [], .render 200 "create-post" errors []⟩
    else
      match file with
      | none => ⟨db, [], .render 200 "create-post" [] [missingImageMsg]⟩
      | some f =>
        match uploadToSupabase cfg env (some f) with
        | (.error e, calls) =>
          ⟨db, calls, .render 200 "create-post" []
            [if e.code = some "LIMIT_FILE_SIZE" then tooLargeMsg else uploadFailedMsg]⟩
        | (.ok up, calls) =>
          ⟨db ++ [⟨env.freshId, t, b, uid,
              match up with
              | some u => if u.publicUrl ≠ "" then some u.publicUrl else none
              | none => none⟩],
            calls, .redirect ("/post/" ++ Nat.repr env.freshId)⟩

/-- The full create-post route of part_001: `mustBeLoggedIn`, the multer
size gate, then the handler. -/
def createPost_p1 (cfg : Config) (env : Env) (db : List Post) (user : Option Nat)
    (title body : Option String) (file : Option File) : HResult :=
  match user with
  | none => ⟨db, [], .redirect "/"⟩
  | some uid =>
    match file with
    | some f =>
      if f.buffer.length > cfg.maxUploadBytes then
        ⟨db, [], .render 400 "create-post" [] [tooLargeMsg]⟩
      else createPostHandler cfg env db uid title body (some f)
    | none => createPostHandler cfg env db uid title body none

/-- The create-post route of src/server.js lines 409-430: `mustBeLoggedIn`,
`share` validation (its multer has no size limit, line 38), upload only
`if (req.file)`, and INSERT in every non-error path — with `imageurl` null
when no file was supplied. -/
def createPost_server (cfg : Config) (env : Env) (db : List Post) (user : Option Nat)
    (title body : Option String) (file : Option File) : HResult :=
  match user with
  | none => ⟨db, [], .redirect "/"⟩
  | some uid =>
    match share env title body with
    | (errors, t, b) =>
      if errors ≠ [] then ⟨db, [], .render 200 "create-post" errors []⟩
      else
        match file with
        | none =>
          ⟨db ++ [⟨env.freshId, t, b, uid, none⟩], [],
            .redirect ("/post/" ++ Nat.repr env.freshId)⟩
        | some f =>
          match uploadToSupabase cfg env (some f) with
          | (.error _, calls) => ⟨db, calls, .render 200 "create-post" [uploadFailedMsg] []⟩
          | (.ok up, calls) =>
            ⟨db ++ [⟨env.freshId, t, b, uid,
                match up with | some u => some u.publicUrl | none => none⟩],
              calls, .redirect ("/post/" ++ Nat.repr env.freshId)⟩

/-- Whether a store call is a delete. -/
def isRemoveCall : StoreCall → Bool
  | .remove _ => true
  | .put _ _ _ => false

/-- How many store deletes a trace contains. -/
def countRemoves (calls : List StoreCall) : Nat := (calls.filter isRemoveCall).length

/-- C7: if the declared MIME type does not start with "image/", or the buffer
is shorter than 100,000 bytes, `compressImage` returns the input buffer
unchanged byte-for-byte (for every sharp-library behaviour). -/
theorem compressImage_passthrough (sh : SharpModel) (buffer : Bytes) (mimetype : String)
    (h : strStartsWith mimetype "image/" = false ∨ buffer.length < 100000) :
    compressImage sh buffer mimetype = buffer := by
  unfold compressImage
  rcases h with h | h
  · simp [h]
  · cases hm : strStartsWith mimetype "image/"
    · simp
    · cases hmd : sh.metadata buffer <;> simp [hmd, h]

theorem compressImage_passthrough_witness :
    (strStartsWith "text/plain" "image/" = false ∨ ([1, 2, 3] : Bytes).length < 100000) ∧
      compressImage ⟨fun _ => .ok (), fun b => .ok b, fun b => .ok b, fun b => .ok b⟩
        [1, 2, 3] "text/plain" = [1, 2, 3] :=
  ⟨Or.inl (by decide),
    compressImage_passthrough _ _ _ (Or.inl (by decide))⟩

/-- C8: whenever the image library raises at any step (metadata, or the
selected re-encode), `compressImage` still returns the original bytes; it is
a total function into `Bytes`, so no error ever propagates to its caller. -/
theorem compressImage_fallback (sh : SharpModel) (buffer : Bytes) (mimetype : String)
    (h : (∃ e, sh.metadata buffer = .error e) ∨ ∃ e, encoderFor sh mimetype buffer = .error e) :
    compressImage sh buffer mimetype = buffer := by
  unfold compressImage
  cases hm : strStartsWith mimetype "image/"
  · simp
  · rcases h with ⟨e, he⟩ | ⟨e, he⟩
    · simp [he]
    · cases hmd : sh.metadata buffer
      · simp
      · by_cases hlen : buffer.length < 100000
        · simp [hlen]
        · simp [hlen, he]

theorem compressImage_fallback_witness :
    ((∃ e, (⟨fun _ => .error ⟨none⟩, fun b => .ok b, fun b => .ok b, fun b => .ok b⟩ :
        SharpModel).metadata [7] = .error e) ∨
      ∃ e, encoderFor ⟨fun _ => .error ⟨none⟩, fun b => .ok b, fun b => .ok b, fun b => .ok b⟩
        "image/png" [7] = .error e) ∧
      compressImage ⟨fun _ => .error ⟨none⟩, fun b => .ok b, fun b => .ok b, fun b => .ok b⟩
        [7] "image/png" = [7] :=
  ⟨Or.inl ⟨⟨none⟩, rfl⟩,
    compressImage_fallback _ _ _ (Or.inl ⟨⟨none⟩, rfl⟩)⟩

lemma auth_of_ne {c : Char} (h1 : c ≠ '/') (h2 : c ≠ '?') (h3 : c ≠ '#') :
    isAuthChar c = true := by
  simp only [isAuthChar, Bool.and_eq_true, bne_iff_ne]
  exact ⟨⟨h1, h2⟩, h3⟩

lemma auth_components {c : Char} (h : isAuthChar c = true) :
    c ≠ '/' ∧ c ≠ '?' ∧ c ≠ '#' := by
  simp only [isAuthChar, Bool.and_eq_true, bne_iff_ne] at h
  exact ⟨h.1.1, h.1.2, h.2⟩

lemma path_of_auth {c : Char} (h : isAuthChar c = true) : isPathChar c = true := by
  obtain ⟨-, h2, h3⟩ := auth_components h
  simp only [isPathChar, Bool.and_eq_true, bne_iff_ne]
  exact ⟨h2, h3⟩

lemma sanitizeChar_auth (c : Char) : isAuthChar (sanitizeChar c) = true := by
  unfold sanitizeChar
  split
  · rename_i h
    refine auth_of_ne ?_ ?_ ?_ <;> intro he <;> subst he <;> revert h <;> decide
  · decide

set_option maxHeartbeats 1000000 in
lemma jsToLowerChar_auth {c : Char} (h : isAuthChar c = true) :
    isAuthChar (jsToLowerChar c) = true := by
  unfold jsToLowerChar
  by_cases hA : c = 'A'
  · subst hA; decide
  rw [if_neg hA]
  by_cases hB : c = 'B'
  · subst hB; decide
  rw [if_neg hB]
  by_cases hC : c = 'C'
  · subst hC; decide
  rw [if_neg hC]
  by_cases hD : c = 'D'
  · subst hD; decide
  rw [if_neg hD]
  by_cases hE : c = 'E'
  · subst hE; decide
  rw [if_neg hE]
  by_cases hF : c = 'F'
  · subst hF; decide
  rw [if_neg hF]
  by_cases hG : c = 'G'
  · subst hG; decide
  rw [if_neg hG]
  by_cases hH : c = 'H'
  · subst hH; decide
  rw [if_neg hH]
  by_cases hI : c = 'I'
  · subst hI; decide
  rw [if_neg hI]
  by_cases hJ : c = 'J'
  · subst hJ; decide
  rw [if_neg hJ]
  by_cases hK : c = 'K'
  · subst hK; decide
  rw [if_neg hK]
  by_cases hL : c = 'L'
  · subst hL; decide
  rw [if_neg hL]
  by_cases hM : c = 'M'
  · subst hM; decide
  rw [if_neg hM]
  by_cases hN : c = 'N'
  · subst hN; decide
  rw [if_neg hN]
  by_cases hO : c = 'O'
  · subst hO; decide
  rw [if_neg hO]
  by_cases hP : c = 'P'
  · subst hP; decide
  rw [if_neg hP]
  by_cases hQ : c = 'Q'
  · subst hQ; decide
  rw [if_neg hQ]
  by_cases hR : c = 'R'
  · subst hR; decide
  rw [if_neg hR]
  by_cases hS : c = 'S'
  · subst hS; decide
  rw [if_neg hS]
  by_cases hT : c = 'T'
  · subst hT; decide
  rw [if_neg hT]
  by_cases hU : c = 'U'
  · subst hU; decide
  rw [if_neg hU]
  by_cases hV : c = 'V'
  · subst hV; decide
  rw [if_neg hV]
  by_cases hW : c = 'W'
  · subst hW; decide
  rw [if_neg hW]
  by_cases hX : c = 'X'
  · subst hX; decide
  rw [if_neg hX]
  by_cases hY : c = 'Y'
  · subst hY; decide
  rw [if_neg hY]
  by_cases hZ : c = 'Z'
  · subst hZ; decide
  rw [if_neg hZ]
  exact h

lemma goodFileChar_auth {c : Char} (h : goodFileChar c = true) : isAuthChar c = true := by
  refine auth_of_ne ?_ ?_ ?_ <;> intro he <;> subst he <;> revert h <;> decide

set_option maxHeartbeats 1000000 in
lemma digitChar_auth (n : Nat) : isAuthChar (Nat.digitChar n) = true := by
  unfold Nat.digitChar
  by_cases h0 : n = 0
  · subst h0; decide
  rw [if_neg h0]
  by_cases h1 : n = 1
  · subst h1; decide
  rw [if_neg h1]
  by_cases h2 : n = 2
  · subst h2; decide
  rw [if_neg h2]
  by_cases h3 : n = 3
  · subst h3; decide
  rw [if_neg h3]
  by_cases h4 : n = 4
  · subst h4; decide
  rw [if_neg h4]
  by_cases h5 : n = 5
  · subst h5; decide
  rw [if_neg h5]
  by_cases h6 : n = 6
  · subst h6; decide
  rw [if_neg h6]
  by_cases h7 : n = 7
  · subst h7; decide
  rw [if_neg h7]
  by_cases h8 : n = 8
  · subst h8; decide
  rw [if_neg h8]
  by_cases h9 : n = 9
  · subst h9; decide
  rw [if_neg h9]
  by_cases h10 : n = 10
  · subst h10; decide
  rw [if_neg h10]
  by_cases h11 : n = 11
  · subst h11; decide
  rw [if_neg h11]
  by_cases h12 : n = 12
  · subst h12; decide
  rw [if_neg h12]
  by_cases h13 : n = 13
  · subst h13; decide
  rw [if_neg h13]
  by_cases h14 : n = 14
  · subst h14; decide
  rw [if_neg h14]
  by_cases h15 : n = 15
  · subst h15; decide
  rw [if_neg h15]
  decide

lemma toDigitsCore_auth :
    ∀ (fuel n : Nat) (acc : List Char), (∀ c ∈ acc, isAuthChar c = true) →
      ∀ c ∈ Nat.toDigitsCore 10 fuel n acc, isAuthChar c = true := by
  intro fuel
  induction fuel with
  | zero =>
    intro n acc hacc c hc
    exact hacc c (by simpa [Nat.toDigitsCore] using hc)
  | succ fuel ih =>
    intro n acc hacc c hc
    simp only [Nat.toDigitsCore] at hc
    split at hc
    · rcases List.mem_cons.mp hc with h | h
      · subst h; exact digitChar_auth _
      · exact hacc c h
    · refine ih _ _ ?_ c hc
      intro x hx
      rcases List.mem_cons.mp hx with h | h
      · subst h; exact digitChar_auth _
      · exact hacc x h

lemma reprChars_auth (n : Nat) : ∀ c ∈ (Nat.repr n).data, isAuthChar c = true := by
  intro c hc
  have h : (Nat.repr n).data = Nat.toDigitsCore 10 (n + 1) n [] := rfl
  rw [h] at hc
  exact toDigitsCore_auth _ _ _ (by intro x hx; cases hx) c hc

lemma mem_of_mem_takeWhile {p : Char → Bool} :
    ∀ {l : List Char} {x : Char}, x ∈ l.takeWhile p → x ∈ l := by
  intro l
  induction l with
  | nil => intro x hx; cases hx
  | cons a t ih =>
    intro x hx
    rw [List.takeWhile_cons] at hx
    split at hx
    · rcases List.mem_cons.mp hx with h | h
      · exact h ▸ List.mem_cons_self _ _
      · exact List.mem_cons_of_mem _ (ih h)
    · cases hx

lemma splitExt_snd_cases {cs : List Char} {c : Char} (h : c ∈ (splitExtCs cs).2) :
    c = '.' ∨ c ∈ cs := by
  unfold splitExtCs at h
  simp only at h
  split at h
  · cases h
  · split at h
    · cases h
    · rcases List.mem_cons.mp h with h | h
      · exact Or.inl h
      · refine Or.inr ?_
        rw [List.mem_reverse] at h
        exact List.mem_reverse.mp (mem_of_mem_takeWhile h)

lemma takeWhile_all {p : Char → Bool} :
    ∀ (l : List Char), (∀ c ∈ l, p c = true) → l.takeWhile p = l := by
  intro l
  induction l with
  | nil => intro; rfl
  | cons a t ih =>
    intro h
    rw [List.takeWhile_cons, if_pos (h a (List.mem_cons_self _ _))]
    rw [ih (fun c hc => h c (List.mem_cons_of_mem _ hc))]

lemma takeWhile_middle {p : Char → Bool} :
    ∀ (a : List Char) (x : Char) (t : List Char), (∀ c ∈ a, p c = true) → p x = false →
      (a ++ x :: t).takeWhile p = a := by
  intro a
  induction a with
  | nil => intro x t _ hx; simp [List.takeWhile_cons, hx]
  | cons b a ih =>
    intro x t ha hx
    rw [List.cons_append, List.takeWhile_cons, if_pos (ha b (List.mem_cons_self _ _))]
    rw [ih x t (fun c hc => ha c (List.mem_cons_of_mem _ hc)) hx]

lemma splitOnSlash_cons (c : Char) (rest : List Char) :
    splitOnSlash (c :: rest) =
      match splitOnSlash rest with
      | [] => [[]]
      | h :: t => if c = '/' then [] :: h :: t else (c :: h) :: t := rfl

lemma splitOnSlash_ne_nil : ∀ cs : List Char, splitOnSlash cs ≠ [] := by
  intro cs
  induction cs with
  | nil => simp [splitOnSlash]
  | cons c rest ih =>
    obtain ⟨h, t, heq⟩ := List.exists_cons_of_ne_nil ih
    rw [splitOnSlash_cons, heq]
    by_cases hc : c = '/' <;> simp [hc]

lemma splitOnSlash_nosep : ∀ (a : List Char), (∀ c ∈ a, c ≠ '/') → splitOnSlash a = [a] := by
  intro a
  induction a with
  | nil => intro; rfl
  | cons c rest ih =>
    intro h
    have hc : c ≠ '/' := h c (List.mem_cons_self _ _)
    rw [splitOnSlash_cons, ih (fun x hx => h x (List.mem_cons_of_mem _ hx))]
    simp [hc]

lemma splitOnSlash_append :
    ∀ (a b : List Char), (∀ c ∈ a, c ≠ '/') →
      splitOnSlash (a ++ '/' :: b) = a :: splitOnSlash b := by
  intro a
  induction a with
  | nil =>
    intro b _
    rw [List.nil_append, splitOnSlash_cons]
    obtain ⟨h, t, heq⟩ := List.exists_cons_of_ne_nil (splitOnSlash_ne_nil b)
    rw [heq]
    simp
  | cons x a ih =>
    intro b h
    have hx : x ≠ '/' := h x (List.mem_cons_self _ _)
    rw [List.cons_append, splitOnSlash_cons, ih b (fun c hc => h c (List.mem_cons_of_mem _ hc))]
    simp [hx]

lemma idxOf_publicParts (bucket posts fn : List Char) :
    idxOf "public".data
      [[], "storage".data, "v1".data, "object".data, "public".data, bucket, posts, fn] =
      some 4 := by
  rw [idxOf, if_neg (by decide)]
  rw [idxOf, if_neg (by decide)]
  rw [idxOf, if_neg (by decide)]
  rw [idxOf, if_neg (by decide)]
  rw [idxOf, if_pos rfl]
  rfl


lemma extractStorageKey_publicUrl (host bucket fn : List Char)
    (hhne : host ≠ [])
    (hhost : ∀ c ∈ host, isAuthChar c = true)
    (hbucket : ∀ c ∈ bucket, isAuthChar c = true)
    (hfn : ∀ c ∈ fn, isAuthChar c = true) :
    extractStorageKey
        ⟨'h':: 't':: 't':: 'p':: 's':: ':':: '/':: '/' ::
          (host ++ '/' :: ("storage/v1/object/public/".data ++
            (bucket ++ '/' :: ("posts".data ++ '/' :: fn))))⟩
      = some ⟨"posts".data ++ '/' :: fn⟩ := by
  have hb' : ∀ c ∈ bucket, c ≠ '/' := fun c hc => (auth_components (hbucket c hc)).1
  have hf' : ∀ c ∈ fn, c ≠ '/' := fun c hc => (auth_components (hfn c hc)).1
  have hlit1 : ∀ c ∈ "storage/v1/object/public/".data, isPathChar c = true := by decide
  have hlit2 : ∀ c ∈ "posts".data, isPathChar c = true := by decide
  have hfnpath : ∀ c ∈ ("storage/v1/object/public/".data ++
      (bucket ++ '/' :: ("posts".data ++ '/' :: fn))), isPathChar c = true := by
    intro c hc
    rcases List.mem_append.mp hc with h | h
    · exact hlit1 c h
    · rcases List.mem_append.mp h with h | h
      · exact path_of_auth (hbucket c h)
      · rcases List.mem_cons.mp h with h | h
        · subst h; decide
        · rcases List.mem_append.mp h with h | h
          · exact hlit2 c h
          · rcases List.mem_cons.mp h with h | h
            · subst h; decide
            · exact path_of_auth (hfn c h)
  have hurl : urlPathnameChars ('h':: 't':: 't':: 'p':: 's':: ':':: '/':: '/' ::
      (host ++ '/' :: ("storage/v1/object/public/".data ++
        (bucket ++ '/' :: ("posts".data ++ '/' :: fn))))) =
      some ('/' :: ("storage/v1/object/public/".data ++
        (bucket ++ '/' :: ("posts".data ++ '/' :: fn)))) := by
    have htake : (host ++ '/' :: ("storage/v1/object/public/".data ++
        (bucket ++ '/' :: ("posts".data ++ '/' :: fn)))).takeWhile isAuthChar = host :=
      takeWhile_middle host '/' _ hhost (by decide)
    unfold urlPathnameChars
    simp only [dropScheme]
    rw [htake, List.drop_left, List.isEmpty_eq_false.mpr hhne]
    simp only [Bool.false_eq_true, if_false]
    rw [takeWhile_all _ hfnpath]
  have hsplit : splitOnSlash ('/' :: ("storage/v1/object/public/".data ++
      (bucket ++ '/' :: ("posts".data ++ '/' :: fn)))) =
      [[], "storage".data, "v1".data, "object".data, "public".data, bucket, "posts".data, fn] := by
    have hshape : '/' :: ("storage/v1/object/public/".data ++
        (bucket ++ '/' :: ("posts".data ++ '/' :: fn))) =
        [] ++ '/' :: ("storage".data ++ '/' :: ("v1".data ++ '/' :: ("object".data ++ '/' ::
          ("public".data ++ '/' :: (bucket ++ '/' :: ("posts".data ++ '/' :: fn)))))) := rfl
    rw [hshape]
    rw [splitOnSlash_append [] _ (by simp)]
    rw [splitOnSlash_append "storage".data _ (by decide)]
    rw [splitOnSlash_append "v1".data _ (by decide)]
    rw [splitOnSlash_append "object".data _ (by decide)]
    rw [splitOnSlash_append "public".data _ (by decide)]
    rw [splitOnSlash_append bucket _ hb']
    rw [splitOnSlash_append "posts".data _ (by decide)]
    rw [splitOnSlash_nosep fn hf']
  have hne : (⟨'h':: 't':: 't':: 'p':: 's':: ':':: '/':: '/' ::
      (host ++ '/' :: ("storage/v1/object/public/".data ++
        (bucket ++ '/' :: ("posts".data ++ '/' :: fn))))⟩ : String) ≠ "" := by
    intro h
    have h2 := congrArg String.data h
    simp at h2
  unfold extractStorageKey
  rw [if_neg hne]
  simp only []
  rw [hurl]
  simp only []
  rw [hsplit, idxOf_publicParts]
  dsimp only
  rw [if_pos (by norm_num)]
  rfl

/-- C6: the round-trip law of the Storage Key Resolver: for every well-formed
original filename, every timestamp, and every well-formed host and bucket
configuration, extracting the storage key from the public URL returned for
the derived key recovers exactly the derived key
(`extractStorageKey (getPublicUrl (deriveKey f)) = some (deriveKey f)`),
per the store's public-URL path convention
`.../object/public/<bucket>/<key...>`. -/
theorem deriveKey_roundtrip (host bucket fname : String) (now : Nat)
    (hhne : host ≠ "")
    (hhost : host.data.all isAuthChar = true)
    (hbucket : bucket.data.all isAuthChar = true)
    (hf : wellFormedFilename fname = true) :
    extractStorageKey
        (getPublicUrl ⟨"https://" ++ host, bucket, true, defaultMaxUploadBytes⟩
          (deriveKey now fname))
      = some (deriveKey now fname) := by
  have hgood : ∀ c ∈ fname.data, goodFileChar c = true := by
    unfold wellFormedFilename at hf
    simp only [Bool.and_eq_true, List.all_eq_true] at hf
    exact hf.1.2
  have hkeydata : (deriveKey now fname).data =
      "posts".data ++ '/' :: ((Nat.repr now).data ++ '_' ::
        ((basenameDrop fname (jsToLower (extnameOf fname))).data.map sanitizeChar ++
          ((splitExtCs fname.data).2).map jsToLowerChar)) := by
    simp [deriveKey, String.data_append, List.append_assoc, jsToLower, extnameOf]
  have hfn : ∀ c ∈ (Nat.repr now).data ++ '_' ::
      ((basenameDrop fname (jsToLower (extnameOf fname))).data.map sanitizeChar ++
        ((splitExtCs fname.data).2).map jsToLowerChar), isAuthChar c = true := by
    intro c hc
    rcases List.mem_append.mp hc with h | h
    · exact reprChars_auth now c h
    · rcases List.mem_cons.mp h with h | h
      · subst h; decide
      · rcases List.mem_append.mp h with h | h
        · obtain ⟨a, _, rfl⟩ := List.mem_map.mp h
          exact sanitizeChar_auth a
        · obtain ⟨a, ha, rfl⟩ := List.mem_map.mp h
          have hga : goodFileChar a = true := by
            rcases splitExt_snd_cases ha with h | h
            · subst h; decide
            · exact hgood a h
          exact jsToLowerChar_auth (goodFileChar_auth hga)
  have hhne' : host.data ≠ [] := by
    intro h
    exact hhne (String.ext h)
  have hU : getPublicUrl ⟨"https://" ++ host, bucket, true, defaultMaxUploadBytes⟩
      (deriveKey now fname) =
      ⟨'h':: 't':: 't':: 'p':: 's':: ':':: '/':: '/' ::
        (host.data ++ '/' :: ("storage/v1/object/public/".data ++
          (bucket.data ++ '/' :: ("posts".data ++ '/' ::
            ((Nat.repr now).data ++ '_' ::
              ((basenameDrop fname (jsToLower (extnameOf fname))).data.map sanitizeChar ++
                ((splitExtCs fname.data).2).map jsToLowerChar))))))⟩ := by
    apply String.ext
    simp [getPublicUrl, String.data_append, List.append_assoc, hkeydata]
  rw [hU]
  rw [extractStorageKey_publicUrl host.data bucket.data _ hhne'
    (List.all_eq_true.mp hhost) (List.all_eq_true.mp hbucket) hfn]
  exact congrArg some (String.ext (by rw [hkeydata]))

theorem deriveKey_roundtrip_witness :
    (wellFormedFilename "My-photo.PNG" = true ∧ ("proj.supabase.co" : String) ≠ "") ∧
    extractStorageKey
        (getPublicUrl ⟨"https://" ++ "proj.supabase.co", "uploads", true, defaultMaxUploadBytes⟩
          (deriveKey 99 "My-photo.PNG"))
      = some (deriveKey 99 "My-photo.PNG") :=
  ⟨⟨by decide, by decide⟩, deriveKey_roundtrip "proj.supabase.co" "uploads" "My-photo.PNG" 99
    (by decide) (by decide) (by decide) (by decide)⟩

/-- C1 (counterexample): a delete-post request by the owner of a post whose
stored public URL has a perfectly extractable storage key removes the
database row but makes no store call at all — in particular no delete of the
stored object is attempted, refuting the claim's second half. -/
theorem deletePost_no_store_delete_cex :
    (deletePost
        [⟨7, "t", "b", 3,
          some "https://proj.supabase.co/storage/v1/object/public/uploads/posts/1_old.png"⟩]
        (some 3) 7).db = [] ∧
    extractStorageKey
        "https://proj.supabase.co/storage/v1/object/public/uploads/posts/1_old.png" =
      some "posts/1_old.png" ∧
    (deletePost
        [⟨7, "t", "b", 3,
          some "https://proj.supabase.co/storage/v1/object/public/uploads/posts/1_old.png"⟩]
        (some 3) 7).calls = [] ∧
    countRemoves (deletePost
        [⟨7, "t", "b", 3,
          some "https://proj.supabase.co/storage/v1/object/public/uploads/posts/1_old.png"⟩]
        (some 3) 7).calls = 0 := by
  refine ⟨by decide, by decide, by decide, by decide⟩

/-- C1 (amended): for every delete-post request by the post's owner, the
program deletes the database row for the post and redirects; it makes no
object-store call, so no delete of the associated stored object is ever
attempted (the key-extraction helper exists but is not used by this route). -/
theorem deletePost_owner (db : List Post) (uid pid : Nat) (post : Post)
    (hfind : findPostById db pid = some post) (hown : post.authorid = uid) :
    deletePost db (some uid) pid = ⟨deleteById db pid, [], .redirect "/"⟩ := by
  simp [deletePost, hfind, hown]

theorem deletePost_owner_witness :
    (findPostById [(⟨7, "t", "b", 3, some "u"⟩ : Post)] 7 = some ⟨7, "t", "b", 3, some "u"⟩ ∧
      (3 : Nat) = 3) ∧
    deletePost [(⟨7, "t", "b", 3, some "u"⟩ : Post)] (some 3) 7 =
      ⟨deleteById [(⟨7, "t", "b", 3, some "u"⟩ : Post)] 7, [], .redirect "/"⟩ :=
  ⟨⟨by decide, rfl⟩,
    deletePost_owner [⟨7, "t", "b", 3, some "u"⟩] 3 7 ⟨7, "t", "b", 3, some "u"⟩ (by decide) rfl⟩

/-- C4: a create-post request (part_001) by a logged-in user with valid
title and body but no uploaded file is rejected with the missing-image field
error; no database row is inserted and no store call is made. -/
theorem createPost_noFile_rejected (cfg : Config) (env : Env) (db : List Post) (uid : Nat)
    (title body : Option String) (hval : (share env title body).1 = []) :
    createPost_p1 cfg env db (some uid) title body none =
      ⟨db, [], .render 200 "create-post" [] [missingImageMsg]⟩ := by
  rcases hsh : share env title body with ⟨errors, t, b⟩
  have herr : errors = [] := by rw [hsh] at hval; exact hval
  subst herr
  simp [createPost_p1, createPostHandler, hsh]

theorem createPost_noFile_rejected_witness :
    (share ⟨fun s => s, ⟨fun _ => .ok (), fun b => .ok b, fun b => .ok b, fun b => .ok b⟩,
        ⟨fun _ _ _ => .ok (), fun _ => .ok ()⟩, 11, 42⟩ (some "T") (some "B")).1 = [] ∧
    createPost_p1 ⟨"https://x.co", "uploads", true, defaultMaxUploadBytes⟩
        ⟨fun s => s, ⟨fun _ => .ok (), fun b => .ok b, fun b => .ok b, fun b => .ok b⟩,
          ⟨fun _ _ _ => .ok (), fun _ => .ok ()⟩, 11, 42⟩ [] (some 1) (some "T") (some "B") none =
      ⟨[], [], .render 200 "create-post" [] [missingImageMsg]⟩ :=
  ⟨by decide,
    createPost_noFile_rejected _ _ [] 1 (some "T") (some "B") (by decide)⟩

/-- C5: a create-post request whose file exceeds the configured maximum
size is rejected by the multer stage before the handler runs — for every
transcoder and store behaviour the table is unchanged and the store trace is
empty (so no transcoding output or upload is ever used) — with the distinct
too-large message, which differs from the generic upload-failed message. -/
theorem createPost_tooLarge_rejected (cfg : Config) (env : Env) (db : List Post) (uid : Nat)
    (title body : Option String) (f : File)
    (hbig : f.buffer.length > cfg.maxUploadBytes) :
    createPost_p1 cfg env db (some uid) title body (some f) =
      ⟨db, [], .render 400 "create-post" [] [tooLargeMsg]⟩ ∧
    tooLargeMsg ≠ uploadFailedMsg := by
  refine ⟨?_, by decide⟩
  simp [createPost_p1, hbig]

theorem createPost_tooLarge_rejected_witness :
    (([1, 2, 3] : Bytes).length > (⟨"https://x.co", "uploads", true, 2⟩ : Config).maxUploadBytes) ∧
    (createPost_p1 ⟨"https://x.co", "uploads", true, 2⟩
        ⟨fun s => s, ⟨fun _ => .ok (), fun b => .ok b, fun b => .ok b, fun b => .ok b⟩,
          ⟨fun _ _ _ => .ok (), fun _ => .ok ()⟩, 11, 42⟩ [] (some 1) (some "T") (some "B")
        (some ⟨"a.png", "image/png", [1, 2, 3]⟩) =
      ⟨[], [], .render 400 "create-post" [] [tooLargeMsg]⟩ ∧
      tooLargeMsg ≠ uploadFailedMsg) :=
  ⟨by decide,
    createPost_tooLarge_rejected _ _ [] 1 (some "T") (some "B") ⟨"a.png", "image/png", [1, 2, 3]⟩
      (by decide)⟩

/-- C2: an edit-post request with a new file whose store upload fails
(any store error whose `code` is not multer's `LIMIT_FILE_SIZE`, which store
errors never carry) leaves the posts table entirely unchanged — `imageurl`,
title and body all keep their pre-edit values — and renders the edit form
with the upload-failed error. -/
theorem editPost_uploadFail_no_update (cfg : Config) (env : Env) (db : List Post)
    (uid pid : Nat) (title body : Option String) (f : File) (post : Post) (e : JsErr)
    (hfind : findPostById db pid = some post) (hown : post.authorid = uid)
    (hval : (share env title body).1 = [])
    (hsize : f.buffer.length ≤ cfg.maxUploadBytes)
    (hcfg : cfg.clientConfigured = true)
    (hput : env.store.putResult (deriveKey env.now f.originalname)
      (compressImage env.sharp f.buffer f.mimetype) f.mimetype = .error e)
    (hcode : e.code ≠ some "LIMIT_FILE_SIZE") :
    (editPost cfg env db (some uid) pid title body (some f)).db = db ∧
    (editPost cfg env db (some uid) pid title body (some f)).response =
      .render 200 "edit-post" [] [uploadFailedMsg] := by
  have hnotbig : ¬ f.buffer.length > cfg.maxUploadBytes := not_lt.mpr hsize
  rcases hsh : share env title body with ⟨errors, t, b⟩
  have herr : errors = [] := by rw [hsh] at hval; exact hval
  subst herr
  simp [editPost, editPostHandler, uploadToSupabase, hfind, hown, hsh, hnotbig, hcfg, hput, hcode]

theorem editPost_uploadFail_no_update_witness :
    ((⟨fun _ _ _ => .error ⟨none⟩, fun _ => .ok ()⟩ : StoreModel).putResult
        (deriveKey 11 "new.png") (compressImage ⟨fun _ => .ok (), fun b => .ok b,
          fun b => .ok b, fun b => .ok b⟩ [1, 2, 3] "image/png") "image/png" = .error ⟨none⟩) ∧
    ((editPost ⟨"https://x.co", "uploads", true, defaultMaxUploadBytes⟩
        ⟨fun s => s, ⟨fun _ => .ok (), fun b => .ok b, fun b => .ok b, fun b => .ok b⟩,
          ⟨fun _ _ _ => .error ⟨none⟩, fun _ => .ok ()⟩, 11, 42⟩
        [⟨7, "t", "b", 3, some "u"⟩] (some 3) 7 (some "T") (some "B")
        (some ⟨"new.png", "image/png", [1, 2, 3]⟩)).db = [⟨7, "t", "b", 3, some "u"⟩] ∧
      (editPost ⟨"https://x.co", "uploads", true, defaultMaxUploadBytes⟩
        ⟨fun s => s, ⟨fun _ => .ok (), fun b => .ok b, fun b => .ok b, fun b => .ok b⟩,
          ⟨fun _ _ _ => .error ⟨none⟩, fun _ => .ok ()⟩, 11, 42⟩
        [⟨7, "t", "b", 3, some "u"⟩] (some 3) 7 (some "T") (some "B")
        (some ⟨"new.png", "image/png", [1, 2, 3]⟩)).response =
        .render 200 "edit-post" [] [uploadFailedMsg]) :=
  ⟨rfl,
    editPost_uploadFail_no_update _ _ [⟨7, "t", "b", 3, some "u"⟩] 3 7 (some "T") (some "B")
      ⟨"new.png", "image/png", [1, 2, 3]⟩ ⟨7, "t", "b", 3, some "u"⟩ ⟨none⟩
      (by decide) rfl (by decide) (by decide) rfl rfl (by decide)⟩

lemma getPublicUrl_ne_empty (cfg : Config) (key : String) : getPublicUrl cfg key ≠ "" := by
  intro h
  have h2 := congrArg String.data h
  simp [getPublicUrl, String.data_append] at h2

/-- C3: an edit-post request with a new file whose upload succeeds, where
the post previously had a nonempty image URL with an extractable nonempty
storage key, updates the row with the new public URL and attempts exactly
one store delete, of the old key, after the upload; the conclusion holds for every
`removeResult` the store oracle may return, so a delete failure is never
propagated to the caller and never undoes the database update (the handler
only logs it). -/
theorem editPost_uploadOk_cleanup (cfg : Config) (env : Env) (db : List Post)
    (uid pid : Nat) (title body : Option String) (f : File) (post : Post)
    (oldUrl oldKey : String)
    (hfind : findPostById db pid = some post) (hown : post.authorid = uid)
    (hval : (share env title body).1 = [])
    (hsize : f.buffer.length ≤ cfg.maxUploadBytes)
    (hcfg : cfg.clientConfigured = true)
    (hput : env.store.putResult (deriveKey env.now f.originalname)
      (compressImage env.sharp f.buffer f.mimetype) f.mimetype = .ok ())
    (hold : post.imageurl = some oldUrl) (holdne : oldUrl ≠ "")
    (hkey : extractStorageKey oldUrl = some oldKey) (hkeyne : oldKey ≠ "") :
    (editPost cfg env db (some uid) pid title body (some f)).db =
      updateWithImage db pid (share env title body).2.1 (share env title body).2.2
        (getPublicUrl cfg (deriveKey env.now f.originalname)) ∧
    (editPost cfg env db (some uid) pid title body (some f)).calls =
      [.put (deriveKey env.now f.originalname)
          (compressImage env.sharp f.buffer f.mimetype) f.mimetype,
        .remove oldKey] ∧
    countRemoves (editPost cfg env db (some uid) pid title body (some f)).calls = 1 ∧
    (editPost cfg env db (some uid) pid title body (some f)).response =
      .redirect ("/post/" ++ Nat.repr pid) := by
  have hnotbig : ¬ f.buffer.length > cfg.maxUploadBytes := not_lt.mpr hsize
  have hurlne : getPublicUrl cfg (deriveKey env.now f.originalname) ≠ "" :=
    getPublicUrl_ne_empty cfg _
  rcases hsh : share env title body with ⟨errors, t, b⟩
  have herr : errors = [] := by rw [hsh] at hval; exact hval
  subst herr
  simp [editPost, editPostHandler, uploadToSupabase, hfind, hown, hsh, hnotbig, hcfg, hput,
    hold, holdne, hkey, hkeyne, hurlne, countRemoves, isRemoveCall]

theorem editPost_uploadOk_cleanup_witness :
    (extractStorageKey
        "https://proj.supabase.co/storage/v1/object/public/uploads/posts/1_old.png" =
      some "posts/1_old.png") ∧
    ((editPost ⟨"https://proj.supabase.co", "uploads", true, defaultMaxUploadBytes⟩
        ⟨fun s => s, ⟨fun _ => .ok (), fun b => .ok b, fun b => .ok b, fun b => .ok b⟩,
          ⟨fun _ _ _ => .ok (), fun _ => .error ⟨none⟩⟩, 11, 42⟩
        [⟨7, "t", "b", 3,
          some "https://proj.supabase.co/storage/v1/object/public/uploads/posts/1_old.png"⟩]
        (some 3) 7 (some "T") (some "B")
        (some ⟨"new.png", "image/png", [1, 2, 3]⟩)).db =
      updateWithImage
        [⟨7, "t", "b", 3,
          some "https://proj.supabase.co/storage/v1/object/public/uploads/posts/1_old.png"⟩]
        7
        (share ⟨fun s => s, ⟨fun _ => .ok (), fun b => .ok b, fun b => .ok b, fun b => .ok b⟩,
          ⟨fun _ _ _ => .ok (), fun _ => .error ⟨none⟩⟩, 11, 42⟩ (some "T") (some "B")).2.1
        (share ⟨fun s => s, ⟨fun _ => .ok (), fun b => .ok b, fun b => .ok b, fun b => .ok b⟩,
          ⟨fun _ _ _ => .ok (), fun _ => .error ⟨none⟩⟩, 11, 42⟩ (some "T") (some "B")).2.2
        (getPublicUrl ⟨"https://proj.supabase.co", "uploads", true, defaultMaxUploadBytes⟩
          (deriveKey 11 "new.png")) ∧
      (editPost ⟨"https://proj.supabase.co", "uploads", true, defaultMaxUploadBytes⟩
        ⟨fun s => s, ⟨fun _ => .ok (), fun b => .ok b, fun b => .ok b, fun b => .ok b⟩,
          ⟨fun _ _ _ => .ok (), fun _ => .error ⟨none⟩⟩, 11, 42⟩
        [⟨7, "t", "b", 3,
          some "https://proj.supabase.co/storage/v1/object/public/uploads/posts/1_old.png"⟩]
        (some 3) 7 (some "T") (some "B")
        (some ⟨"new.png", "image/png", [1, 2, 3]⟩)).calls =
        [.put (deriveKey 11 "new.png")
            (compressImage ⟨fun _ => .ok (), fun b => .ok b, fun b => .ok b, fun b => .ok b⟩
              [1, 2, 3] "image/png") "image/png",
          .remove "posts/1_old.png"] ∧
      countRemoves (editPost ⟨"https://proj.supabase.co", "uploads", true, defaultMaxUploadBytes⟩
        ⟨fun s => s, ⟨fun _ => .ok (), fun b => .ok b, fun b => .ok b, fun b => .ok b⟩,
          ⟨fun _ _ _ => .ok (), fun _ => .error ⟨none⟩⟩, 11, 42⟩
        [⟨7, "t", "b", 3,
          some "https://proj.supabase.co/storage/v1/object/public/uploads/posts/1_old.png"⟩]
        (some 3) 7 (some "T") (some "B")
        (some ⟨"new.png", "image/png", [1, 2, 3]⟩)).calls = 1 ∧
      (editPost ⟨"https://proj.supabase.co", "uploads", true, defaultMaxUploadBytes⟩
        ⟨fun s => s, ⟨fun _ => .ok (), fun b => .ok b, fun b => .ok b, fun b => .ok b⟩,
          ⟨fun _ _ _ => .ok (), fun _ => .error ⟨none⟩⟩, 11, 42⟩
        [⟨7, "t", "b", 3,
          some "https://proj.supabase.co/storage/v1/object/public/uploads/posts/1_old.png"⟩]
        (some 3) 7 (some "T") (some "B")
        (some ⟨"new.png", "image/png", [1, 2, 3]⟩)).response =
        .redirect ("/post/" ++ Nat.repr 7)) :=
  ⟨by decide,
    editPost_uploadOk_cleanup _ _ _ 3 7 (some "T") (some "B")
      ⟨"new.png", "image/png", [1, 2, 3]⟩
      ⟨7, "t", "b", 3,
        some "https://proj.supabase.co/storage/v1/object/public/uploads/posts/1_old.png"⟩
      "https://proj.supabase.co/storage/v1/object/public/uploads/posts/1_old.png"
      "posts/1_old.png"
      (by decide) rfl (by decide) (by decide) rfl rfl rfl (by decide) (by decide) (by decide)⟩

/-- C9 (counterexample): an `image/gif` upload large enough to be
transcoded (the sharp oracle converts it to JPEG bytes `[9, 9]`) is stored
via a put call whose content type is `image/gif` — the file's declared type,
which is none of `image/webp`/`image/jpeg`/`image/png` — refuting the claim
that the put uses the transcoded content type. -/
theorem upload_contentType_cex :
    (uploadToSupabase ⟨"https://proj.supabase.co", "uploads", true, defaultMaxUploadBytes⟩
        ⟨fun s => s,
          ⟨fun _ => .ok (), fun _ => .ok [9, 9], fun _ => .ok [8, 8], fun _ => .ok [7, 7]⟩,
          ⟨fun _ _ _ => .ok (), fun _ => .ok ()⟩, 11, 42⟩
        (some ⟨"anim.gif", "image/gif", List.replicate 100000 1⟩)).2 =
      [.put "posts/11_anim.gif" [9, 9] "image/gif"] ∧
    ("image/gif" : String) ≠ "image/webp" ∧ ("image/gif" : String) ≠ "image/jpeg" ∧
      ("image/gif" : String) ≠ "image/png" := by
  refine ⟨?_, by decide, by decide, by decide⟩
  have hcomp : compressImage
      ⟨fun _ => .ok (), fun _ => .ok [9, 9], fun _ => .ok [8, 8], fun _ => .ok [7, 7]⟩
      (List.replicate 100000 1) "image/gif" = [9, 9] := by
    have hlen : (List.replicate 100000 1 : Bytes).length = 100000 := by
      exact List.length_replicate 100000 1
    unfold compressImage
    rw [if_neg (by decide)]
    rw [if_neg (by rw [hlen]; decide)]
    rfl
  unfold uploadToSupabase
  dsimp only
  rw [if_neg (by decide)]
  dsimp only
  rw [hcomp]
  decide

/-- C9 (amended): whenever the store client is configured, the single put
call `uploadToSupabase` makes carries the transcoded bytes but the file's
*original* declared MIME type (`file.mimetype`), not the transcoded content
type. -/
theorem upload_contentType_amended (cfg : Config) (env : Env) (f : File)
    (hcfg : cfg.clientConfigured = true) :
    (uploadToSupabase cfg env (some f)).2 =
      [.put (deriveKey env.now f.originalname)
        (compressImage env.sharp f.buffer f.mimetype) f.mimetype] := by
  unfold uploadToSupabase
  rw [hcfg]
  dsimp only
  cases h : env.store.putResult (deriveKey env.now f.originalname)
    (compressImage env.sharp f.buffer f.mimetype) f.mimetype <;> simp [h]

theorem upload_contentType_amended_witness :
    ((⟨"https://x.co", "uploads", true, defaultMaxUploadBytes⟩ : Config).clientConfigured
        = true) ∧
    (uploadToSupabase ⟨"https://x.co", "uploads", true, defaultMaxUploadBytes⟩
        ⟨fun s => s, ⟨fun _ => .ok (), fun b => .ok b, fun b => .ok b, fun b => .ok b⟩,
          ⟨fun _ _ _ => .ok (), fun _ => .ok ()⟩, 11, 42⟩
        (some ⟨"a.png", "image/png", [1, 2, 3]⟩)).2 =
      [.put (deriveKey 11 "a.png")
        (compressImage ⟨fun _ => .ok (), fun b => .ok b, fun b => .ok b, fun b => .ok b⟩
          [1, 2, 3] "image/png") "image/png"] :=
  ⟨rfl,
    upload_contentType_amended _ _ ⟨"a.png", "image/png", [1, 2, 3]⟩ rfl⟩

/-- C10 (counterexample): for a logged-in user's create-post request with
valid title and body and no file, the two variants differ: part_001 inserts
nothing while server.js inserts a row — so it is not the case that the two
have the same database effect. -/
theorem createPost_variants_cex :
    (createPost_p1 ⟨"https://x.co", "uploads", true, defaultMaxUploadBytes⟩
        ⟨fun s => s, ⟨fun _ => .ok (), fun b => .ok b, fun b => .ok b, fun b => .ok b⟩,
          ⟨fun _ _ _ => .ok (), fun _ => .ok ()⟩, 11, 42⟩
        [] (some 1) (some "Hello") (some "World") none).db = [] ∧
    (createPost_server ⟨"https://x.co", "uploads", true, defaultMaxUploadBytes⟩
        ⟨fun s => s, ⟨fun _ => .ok (), fun b => .ok b, fun b => .ok b, fun b => .ok b⟩,
          ⟨fun _ _ _ => .ok (), fun _ => .ok ()⟩, 11, 42⟩
        [] (some 1) (some "Hello") (some "World") none).db =
      [⟨42, "Hello", "World", 1, none⟩] ∧
    ¬ ((createPost_p1 ⟨"https://x.co", "uploads", true, defaultMaxUploadBytes⟩
        ⟨fun s => s, ⟨fun _ => .ok (), fun b => .ok b, fun b => .ok b, fun b => .ok b⟩,
          ⟨fun _ _ _ => .ok (), fun _ => .ok ()⟩, 11, 42⟩
        [] (some 1) (some "Hello") (some "World") none).db = [] ↔
      (createPost_server ⟨"https://x.co", "uploads", true, defaultMaxUploadBytes⟩
        ⟨fun s => s, ⟨fun _ => .ok (), fun b => .ok b, fun b => .ok b, fun b => .ok b⟩,
          ⟨fun _ _ _ => .ok (), fun _ => .ok ()⟩, 11, 42⟩
        [] (some 1) (some "Hello") (some "World") none).db = []) := by
  refine ⟨by decide, by decide, ?_⟩
  intro h
  have h1 : (createPost_p1 ⟨"https://x.co", "uploads", true, defaultMaxUploadBytes⟩
        ⟨fun s => s, ⟨fun _ => .ok (), fun b => .ok b, fun b => .ok b, fun b => .ok b⟩,
          ⟨fun _ _ _ => .ok (), fun _ => .ok ()⟩, 11, 42⟩
        [] (some 1) (some "Hello") (some "World") none).db = [] := by decide
  have h2 := h.mp h1
  revert h2
  decide

/-- C10 (amended): for every create-post request by a logged-in user with
valid title and body but no uploaded file, the two server variants differ:
src/unnamed/part_001 rejects and leaves the table unchanged, while
src/server.js inserts a row whose `imageurl` is null. -/
theorem createPost_variants_amended (cfg : Config) (env : Env) (db : List Post) (uid : Nat)
    (title body : Option String) (hval : (share env title body).1 = []) :
    (createPost_p1 cfg env db (some uid) title body none).db = db ∧
    (createPost_server cfg env db (some uid) title body none).db =
      db ++ [⟨env.freshId, (share env title body).2.1, (share env title body).2.2, uid, none⟩] := by
  rcases hsh : share env title body with ⟨errors, t, b⟩
  have herr : errors = [] := by rw [hsh] at hval; exact hval
  subst herr
  constructor
  · simp [createPost_p1, createPostHandler, hsh]
  · simp [createPost_server, hsh]

theorem createPost_variants_amended_witness :
    (share ⟨fun s => s, ⟨fun _ => .ok (), fun b => .ok b, fun b => .ok b, fun b => .ok b⟩,
        ⟨fun _ _ _ => .ok (), fun _ => .ok ()⟩, 11, 42⟩ (some "Hello") (some "World")).1 = [] ∧
    ((createPost_p1 ⟨"https://x.co", "uploads", true, defaultMaxUploadBytes⟩
        ⟨fun s => s, ⟨fun _ => .ok (), fun b => .ok b, fun b => .ok b, fun b => .ok b⟩,
          ⟨fun _ _ _ => .ok (), fun _ => .ok ()⟩, 11, 42⟩
        [] (some 1) (some "Hello") (some "World") none).db = [] ∧
      (createPost_server ⟨"https://x.co", "uploads", true, defaultMaxUploadBytes⟩
        ⟨fun s => s, ⟨fun _ => .ok (), fun b => .ok b, fun b => .ok b, fun b => .ok b⟩,
          ⟨fun _ _ _ => .ok (), fun _ => .ok ()⟩, 11, 42⟩
        [] (some 1) (some "Hello") (some "World") none).db =
        [] ++ [⟨42,
          (share ⟨fun s => s, ⟨fun _ => .ok (), fun b => .ok b, fun b => .ok b, fun b => .ok b⟩,
            ⟨fun _ _ _ => .ok (), fun _ => .ok ()⟩, 11, 42⟩ (some "Hello") (some "World")).2.1,
          (share ⟨fun s => s, ⟨fun _ => .ok (), fun b => .ok b, fun b => .ok b, fun b => .ok b⟩,
            ⟨fun _ _ _ => .ok (), fun _ => .ok ()⟩, 11, 42⟩ (some "Hello") (some "World")).2.2,
          1, none⟩]) :=
  ⟨by decide,
    createPost_variants_amended _ _ [] 1 (some "Hello") (some "World") (by decide)⟩
